import Mathlib

/-!
Verification of the client-side protocol engine of `swiplserver`
(`src/swiplserver/prologserver.py`) against its natural-language
specification.

The Python code is shallowly embedded:

* Python `str` values are `List Char` (`PyStr`); the Python character
  predicates (`isupper`, `isalpha`, `isalnum`, whitespace for `strip`)
  are modelled on the ASCII range, which covers every string these
  functions receive from the wire protocol and every example in the spec.
* byte strings are `List Nat` (`Bytes`), each entry one byte value;
* decoded JSON replies (the output of `json.loads`) are the inductive
  `PJson`; JSON objects carry their entries as an association list with
  distinct keys, as produced by `json.loads`;
* functions that can raise a Python exception return `Option` (`none`
  is the raised exception); where the distinction between several
  exception kinds matters the result type says which;
* the blocking socket loop of `PrologThread._receive` is modelled as a
  state machine (`RState`) driven by the list of successive values
  returned by `socket.recv`: an empty entry models a read on a closed
  connection (Python `recv` returns `b""`), and reaching the end of the
  list without a result models a receive that never returns.
-/

/-- Python `str`, as a list of Unicode characters. -/
abbrev PyStr := List Char

/-- Python `bytes` / `bytearray`: a list of byte values. -/
abbrev Bytes := List Nat

/-! ### Python character predicates (ASCII range)

These model the Python `str` methods used by `prologserver.py` on the
ASCII range (the only range exercised by the protocol and the spec). -/

/-- Python `c.isupper()` for ASCII `c`. -/
def pyIsUpper (c : Char) : Bool := 65 ≤ c.toNat && c.toNat ≤ 90

/-- Python `c.islower()` for ASCII `c`. -/
def pyIsLower (c : Char) : Bool := 97 ≤ c.toNat && c.toNat ≤ 122

/-- Python `c.isalpha()` for ASCII `c`. -/
def pyIsAlpha (c : Char) : Bool := pyIsUpper c || pyIsLower c

/-- Python `c.isdigit()` for ASCII `c`. -/
def pyIsDigit (c : Char) : Bool := 48 ≤ c.toNat && c.toNat ≤ 57

/-- Python `c.isalnum()` for one ASCII character. -/
def pyIsAlnumChar (c : Char) : Bool := pyIsAlpha c || pyIsDigit c

/-- Python `s.isalnum()`: true iff `s` is nonempty and every character is
alphanumeric. -/
def pyIsAlnum (s : PyStr) : Bool := !s.isEmpty && s.all pyIsAlnumChar

/-- Python whitespace characters stripped by `str.strip()` (ASCII range). -/
def pyIsSpace (c : Char) : Bool :=
  c.toNat = 32 || c.toNat = 9 || c.toNat = 10 || c.toNat = 13 ||
  c.toNat = 11 || c.toNat = 12

/-- Python `s.strip()`: remove leading and trailing whitespace. -/
def pyStrip (s : PyStr) : PyStr :=
  (((s.dropWhile pyIsSpace).reverse).dropWhile pyIsSpace).reverse

/-- Python `s.rstrip("\n.")`: remove every trailing newline or dot. -/
def pyRstripDotNL (s : PyStr) : PyStr :=
  ((s.reverse).dropWhile (fun c => c = '\n' || c = '.')).reverse

/-! ### UTF-8 encoding and decoding

Models Python `str.encode("utf-8")` and `bytes.decode("utf-8")`. -/

/-- The UTF-8 byte sequence of one character. -/
def utf8Bytes (c : Char) : Bytes :=
  let n := c.toNat
  if n < 128 then [n]
  else if n < 2048 then [192 + n / 64, 128 + n % 64]
  else if n < 65536 then [224 + n / 4096, 128 + n / 64 % 64, 128 + n % 64]
  else [240 + n / 262144, 128 + n / 4096 % 64, 128 + n / 64 % 64, 128 + n % 64]

/-- Python `s.encode("utf-8")`. -/
def utf8Encode (s : PyStr) : Bytes := s.flatMap utf8Bytes

/-- Decode one UTF-8-encoded character: the first byte and the remaining
bytes in, the character and the bytes after it out; `none` on an invalid
sequence. The decoder is strict: continuation bytes must be in range, and
overlong, surrogate, or out-of-range encodings are rejected. -/
def utf8DecodeOne (b : Nat) (rest : Bytes) : Option (Char × Bytes) :=
  if b < 128 then some (Char.ofNat b, rest)
  else if b < 192 then none
  else if b < 224 then
    match rest with
    | b2 :: rest2 =>
      if 128 ≤ b2 && b2 < 192 then
        let n := (b - 192) * 64 + (b2 - 128)
        if 128 ≤ n then some (Char.ofNat n, rest2) else none
      else none
    | _ => none
  else if b < 240 then
    match rest with
    | b2 :: b3 :: rest3 =>
      if (128 ≤ b2 && b2 < 192) && (128 ≤ b3 && b3 < 192) then
        let n := (b - 224) * 4096 + (b2 - 128) * 64 + (b3 - 128)
        if 2048 ≤ n && (n < 55296 || 57344 ≤ n) then
          some (Char.ofNat n, rest3)
        else none
      else none
    | _ => none
  else if b < 248 then
    match rest with
    | b2 :: b3 :: b4 :: rest4 =>
      if (128 ≤ b2 && b2 < 192) && ((128 ≤ b3 && b3 < 192) && (128 ≤ b4 && b4 < 192)) then
        let n := (b - 240) * 262144 + (b2 - 128) * 4096 + (b3 - 128) * 64 + (b4 - 128)
        if 65536 ≤ n && n < 1114112 then
          some (Char.ofNat n, rest4)
        else none
      else none
    | _ => none
  else none

/-- The decode loop, with recursion fuel: each decoded character consumes
at least one byte, so fuel equal to the byte count (as passed by
`utf8Decode`) never runs out. -/
def utf8DecodeFuel : Nat → Bytes → Option PyStr
  | _, [] => some []
  | 0, _ :: _ => none
  | fuel + 1, b :: rest =>
    match utf8DecodeOne b rest with
    | some (c, rest2) =>
      match utf8DecodeFuel fuel rest2 with
      | some s => some (c :: s)
      | none => none
    | none => none

/-- Python `bs.decode("utf-8")`; `none` models a raised
`UnicodeDecodeError`. -/
def utf8Decode (bs : Bytes) : Option PyStr := utf8DecodeFuel bs.length bs

/-! ### Decimal numbers on the wire -/

/-- The decimal digit characters of `n`, most significant first: Python
`str(n)` for a natural number. -/
def pyStrOfNat (n : Nat) : PyStr :=
  if n = 0 then ['0']
  else ((Nat.digits 10 n).reverse).map (fun d => Char.ofNat (48 + d))

/-- The decimal digit bytes of `n`, most significant first (the ASCII bytes
of `str(n)`). -/
def digitBytesOfNat (n : Nat) : Bytes :=
  if n = 0 then [48]
  else ((Nat.digits 10 n).reverse).map (fun d => 48 + d)

/-- Python `int(s)` applied to the byte-by-byte accumulated length header:
an all-digit nonempty string parses to its decimal value, anything else
(including the empty string) raises `ValueError`, modelled as `none`.
(Python `int` also accepts signs and surrounding whitespace; the length
headers this function receives never contain them, and on every input
appearing in a claim this model agrees with `int`.) -/
def pyIntBytes (bs : Bytes) : Option Nat :=
  if bs ≠ [] ∧ ∀ b ∈ bs, 48 ≤ b ∧ b ≤ 57 then
    some (bs.foldl (fun acc b => acc * 10 + (b - 48)) 0)
  else none

/-! ### The decoded JSON reply model -/

/-- A decoded JSON value as returned by `json.loads` on a reply: a string,
a number, a list, or an object (a Python dict, carried as its entry list;
`json.loads` produces distinct keys). Numbers are modelled as integers —
no claim involves non-integer numbers. -/
inductive PJson where
  | pstr (s : PyStr)
  | pnum (n : Int)
  | plist (l : List PJson)
  | pobj (entries : List (PyStr × PJson))

mutual

/-- Structural size of a `PJson` term, used as recursion fuel for
`json_to_prolog`. -/
def pjSize : PJson → Nat
  | .pstr _ => 1
  | .pnum _ => 1
  | .plist l => 1 + pjListSize l
  | .pobj m => 1 + pjObjSize m

def pjListSize : List PJson → Nat
  | [] => 0
  | x :: xs => 1 + pjSize x + pjListSize xs

def pjObjSize : List (PyStr × PJson) → Nat
  | [] => 0
  | p :: xs => 1 + pjSize p.2 + pjObjSize xs

end

/-- Python `d[k]` on a dict carried as an entry list. -/
def lookupObj : List (PyStr × PJson) → PyStr → Option PJson
  | [], _ => none
  | p :: rest, k => if p.1 = k then some p.2 else lookupObj rest k

/-- Python `t == s` where `s` is a string literal: true iff `t` is that
string (comparison of a JSON value against a `str` constant). -/
def isStrV (t : PJson) (s : PyStr) : Bool :=
  match t with
  | .pstr s2 => s2 = s
  | _ => false

def strFunctorS : PyStr := "functor".toList

def strArgsS : PyStr := "args".toList

/-- `is_prolog_functor(json_term)`: a dict with "functor" and "args" keys. -/
def is_prolog_functor (j : PJson) : Bool :=
  match j with
  | .pobj m => (lookupObj m strFunctorS).isSome && (lookupObj m strArgsS).isSome
  | _ => false

/-- `is_prolog_list(json_term)`. -/
def is_prolog_list (j : PJson) : Bool :=
  match j with
  | .plist _ => true
  | _ => false

/-- `is_prolog_variable(json_term)`: `isinstance(json_term, str) and
(json_term[0].isupper() or json_term[0] == "_")`. On the empty string the
index `json_term[0]` raises `IndexError`, modelled as `none`. -/
def is_prolog_variable (j : PJson) : Option Bool :=
  match j with
  | .pstr [] => none
  | .pstr (c :: _) => some (pyIsUpper c || c = '_')
  | _ => some false

/-- `is_prolog_atom(json_term)`: a string that is not a variable; raises
`IndexError` (`none`) on the empty string, via `is_prolog_variable`. -/
def is_prolog_atom (j : PJson) : Option Bool :=
  match j with
  | .pstr s =>
    match is_prolog_variable (.pstr s) with
    | none => none
    | some b => some (!b)
  | _ => some false

/-- `prolog_name(json_term)`: the atom or variable text itself, otherwise
`json_term["functor"]`. `none` models the raised `IndexError` (empty
string) or `KeyError`/`TypeError` (missing key / unsubscriptable value). -/
def prolog_name (j : PJson) : Option PJson :=
  match j with
  | .pstr [] => none
  | .pstr s => some (.pstr s)
  | .pobj m => lookupObj m strFunctorS
  | _ => none

/-- `prolog_args(json_term)`: `json_term["args"]`; `none` models the raised
`KeyError`/`TypeError`. -/
def prolog_args (j : PJson) : Option PJson :=
  match j with
  | .pobj m => lookupObj m strArgsS
  | _ => none

/-- Python `len(x)` on a JSON value; numbers have no length (`TypeError`). -/
def pyLen (j : PJson) : Option Nat :=
  match j with
  | .pstr s => some s.length
  | .plist l => some l.length
  | .pobj m => some m.length
  | .pnum _ => none

/-- Python `x[0]` on a JSON value: first list element, or the one-character
string for a string; `none` models `IndexError`/`TypeError`/`KeyError`. -/
def pyIndex0 (j : PJson) : Option PJson :=
  match j with
  | .plist (x :: _) => some x
  | .pstr (c :: _) => some (.pstr [c])
  | _ => none

/-- Python `x[1]`, as `pyIndex0`. -/
def pyIndex1 (j : PJson) : Option PJson :=
  match j with
  | .plist (_ :: y :: _) => some y
  | .pstr (_ :: c :: _) => some (.pstr [c])
  | _ => none

/-! ### Identifier quoting and rendering back to Prolog text -/

/-- The single-quote character. -/
def squoteC : Char := Char.ofNat 39

/-- `quote_prolog_identifier(identifier)`. Non-atoms are returned
unchanged; an atom is wrapped in single quotes iff it does not start with
a letter or, after removing underscores (`identifier.translate`), is not
a nonempty alphanumeric string. `none` models the `IndexError` raised by
`is_prolog_atom` on the empty string. The branch for a `some true` atom
always sees a nonempty string (otherwise `is_prolog_atom` would have
raised); the unreachable empty case is mapped to `none`. -/
def quote_prolog_identifier (j : PJson) : Option PJson :=
  match is_prolog_atom j with
  | none => none
  | some false => some j
  | some true =>
    match j with
    | .pstr (c :: cs) =>
      let s := c :: cs
      let translated := s.filter (fun x => !(x = '_'))
      let mustQuote := !(pyIsAlpha c) || !(pyIsAlnum translated)
      if mustQuote then some (.pstr (squoteC :: s ++ [squoteC]))
      else some (.pstr s)
    | _ => none

/-- Python `str(n)` for an integer. -/
def pyStrOfInt (n : Int) : PyStr :=
  if n < 0 then '-' :: pyStrOfNat n.natAbs else pyStrOfNat n.toNat

/-- Python `str(x)` on the values reaching the leaf branch of
`json_to_prolog` (strings and numbers; other shapes are unreachable for
well-formed terms and modelled as `none`). -/
def pyToStr (j : PJson) : Option PyStr :=
  match j with
  | .pstr s => some s
  | .pnum n => some (pyStrOfInt n)
  | _ => none

/-- Intersperse `", "` between rendered arguments (`", ".join`). -/
def joinCommaSep : List PyStr → PyStr
  | [] => []
  | [s] => s
  | s :: rest => s ++ ',' :: ' ' :: joinCommaSep rest

mutual

/-- `json_to_prolog(json_term)`, with recursion fuel: a compound renders as
`name(arg1, ..., argN)` with the name quoted as required, a list as
`[e1, ..., eN]`, and a leaf as `str(quote_prolog_identifier(term))`.
The fuel is bounded below by the structural size of the term, so it never
runs out (`json_to_prolog` passes `pjSize j`); `none` from exhausted fuel
cannot occur on any input a theorem below evaluates. `none` otherwise
models the raised Python error from the leaf helpers. Compound arguments
that are not a JSON list would be iterated characterwise or keywise by
Python; no reply or claim produces them, and they are modelled as `none`. -/
def jsonToPrologFuel : Nat → PJson → Option PyStr
  | 0, _ => none
  | fuel + 1, j =>
    if is_prolog_functor j then
      match prolog_args j with
      | some (.plist args) =>
        match prolog_name j with
        | some nm =>
          match quote_prolog_identifier nm with
          | some qn =>
            match pyToStr qn, jsonListToProlog fuel args with
            | some nmStr, some argStrs =>
              some (nmStr ++ '(' :: (joinCommaSep argStrs ++ [')']))
            | _, _ => none
          | none => none
        | none => none
      | _ => none
    else if is_prolog_list j then
      match j with
      | .plist items =>
        match jsonListToProlog fuel items with
        | some itemStrs => some ('[' :: (joinCommaSep itemStrs ++ [']']))
        | none => none
      | _ => none
    else
      match quote_prolog_identifier j with
      | some q => pyToStr q
      | none => none

def jsonListToProlog : Nat → List PJson → Option (List PyStr)
  | _, [] => some []
  | 0, _ :: _ => none
  | fuel + 1, x :: xs =>
    match jsonToPrologFuel fuel x, jsonListToProlog fuel xs with
    | some s, some rest => some (s :: rest)
    | _, _ => none

end

/-- `json_to_prolog(json_term)`. -/
def json_to_prolog (j : PJson) : Option PyStr := jsonToPrologFuel (pjSize j) j

/-! ### The error/result taxonomy (`PrologThread._return_prolog_response`) -/

/-- Dict keys accepted by Python: strings and numbers are hashable; using a
list or dict as a key raises `TypeError` (modelled as a fault where used). -/
inductive PKey where
  | kstr (s : PyStr)
  | knum (n : Int)
deriving DecidableEq

/-- A Python dict with JSON-term values, as its ordered entry list. -/
abbrev PyDict := List (PKey × PJson)

/-- Turn a JSON value into a dict key; `none` models the `TypeError` raised
by Python for unhashable keys. -/
def pkeyOf (j : PJson) : Option PKey :=
  match j with
  | .pstr s => some (.kstr s)
  | .pnum n => some (.knum n)
  | _ => none

/-- Python `d[k] = v`: overwrite in place if the key is present (keeping its
position), otherwise append. -/
def dictInsert (d : PyDict) (k : PKey) (v : PJson) : PyDict :=
  if d.any (fun p => p.1 = k) then
    d.map (fun p => if p.1 = k then (p.1, v) else p)
  else d ++ [(k, v)]

/-- One element of the answer list built by `_return_prolog_response`:
Python `True` for an empty binding list, otherwise the variable dict. -/
inductive PAnswer where
  | ptrue
  | pdict (d : PyDict)

/-- The dict-building loop over one binding list (`for answerAssignment in
answer`): each element contributes `prolog_args(e)[0]` as key and
`prolog_args(e)[1]` as value. `none` models the raised `KeyError` /
`IndexError` / `TypeError` on elements of the wrong shape. -/
def buildDictLoop (acc : PyDict) : List PJson → Option PyDict
  | [] => some acc
  | aa :: rest =>
    match prolog_args aa with
    | none => none
    | some a =>
      match pyIndex0 a, pyIndex1 a with
      | some kj, some v =>
        match pkeyOf kj with
        | some k => buildDictLoop (dictInsert acc k v) rest
        | none => none
      | _, _ => none

/-- The answer-list loop of `_return_prolog_response` (`for answer in
prolog_args(jsonResult)[0]`): an empty binding list appends `True`, a
nonempty one appends its variable dict. A binding list that is not a JSON
list would be iterated characterwise or keywise by Python; no reply shape
in a claim produces one, and it is modelled as a fault (`none`). -/
def buildAnswers : List PJson → Option (List PAnswer)
  | [] => some []
  | ans :: rest =>
    match ans with
    | .plist aas =>
      match
        (if aas.length = 0 then some .ptrue
         else match buildDictLoop [] aas with
              | some d => some (.pdict d)
              | none => none : Option PAnswer)
      with
      | some a =>
        match buildAnswers rest with
        | some others => some (a :: others)
        | none => none
      | none => none
    | _ => none

/-- The typed exception classes raised by `_return_prolog_response`. -/
inductive PErrKind where
  | connectionFailed
  | queryTimeout
  | noQuery
  | queryCancelled
  | resultNotAvailable
  | generic
deriving DecidableEq

/-- A raised `PrologError` (or subclass): its kind and the inner exception
term stored by `PrologError.__init__` (`prolog_args(exception_json)[0]`). -/
structure PrologErr where
  kind : PErrKind
  payload : PJson

/-- `PrologError.prolog()`: the Prolog source text of the stored term. -/
def PrologErr.prologText (e : PrologErr) : Option PyStr :=
  json_to_prolog e.payload

/-- `PrologError.is_prolog_exception(term_name)`: compares
`prolog_name(self._exception_json)` against the given name; `none` models
the error `prolog_name` itself can raise. -/
def PrologErr.isPrologException (e : PrologErr) (nm : PyStr) : Option Bool :=
  match prolog_name e.payload with
  | some x => some (isStrV x nm)
  | none => none

/-- The value `_return_prolog_response` returns when it does not raise. -/
inductive PyVal where
  | pynone
  | pybool (b : Bool)
  | pylist (l : List PAnswer)
  | pyjson (j : PJson)

/-- The outcome of `_return_prolog_response` on a decoded reply: a returned
value, a raised typed `PrologError`, or an untyped Python fault
(`KeyError`/`IndexError`/`TypeError`/`AssertionError`) on replies of an
unexpected shape. -/
inductive ROutcome where
  | ret (v : PyVal)
  | raised (e : PrologErr)
  | pyFault

/-- The `PrologError.__init__` assertion and payload extraction: requires
`prolog_name(exception_json) == "exception"` and exactly one argument,
then stores `prolog_args(exception_json)[0]`. `none` models the
`AssertionError` (or an error raised by the helpers). -/
def prologErrInit (j : PJson) : Option PJson :=
  match prolog_name j with
  | none => none
  | some nm =>
    if isStrV nm ("exception".toList) then
      match prolog_args j with
      | none => none
      | some a =>
        match pyLen a with
        | some 1 => pyIndex0 a
        | _ => none
    else none

/-- Build the outcome for `raise SomeError(jsonResult)`. -/
def mkRaise (k : PErrKind) (j : PJson) : ROutcome :=
  match prologErrInit j with
  | some inner => .raised ⟨k, inner⟩
  | none => .pyFault

def strNoMoreResultsS : PyStr := "no_more_results".toList

def strConnectionFailedS : PyStr := "connection_failed".toList

def strTimeLimitS : PyStr := "time_limit_exceeded".toList

def strNoQueryS : PyStr := "no_query".toList

def strCancelGoalS : PyStr := "cancel_goal".toList

def strResultNotAvailableS : PyStr := "result_not_available".toList

def strExceptionS : PyStr := "exception".toList

def strFalseS : PyStr := "false".toList

def strTrueS : PyStr := "true".toList

/-- The final collapse of `_return_prolog_response`'s true branch:
`if answerList == [True]: return True else: return answerList`. -/
def collapseAnswerList (answerList : List PAnswer) : PyVal :=
  match answerList with
  | [.ptrue] => .pybool true
  | _ => .pylist answerList

/-- `PrologThread._return_prolog_response` on an already decoded reply
`j`, together with its effect on the owning server handle's
`connection_failed` flag (first component of the result: the flag after
the call, given the flag before it). Mirrors the source line by line:
the exception branch compares `jsonResult["args"][0]` against the six
literal strings in order; the `connection_failed` branch sets the flag
before raising; `"false"` returns `False`; `"true"` builds the answer
list and collapses `[True]` to `True`; any other shape falls through to
`return jsonResult`. -/
def returnPrologResponse (flag : Bool) (j : PJson) : Bool × ROutcome :=
  match prolog_name j with
  | none => (flag, .pyFault)
  | some nm =>
    if isStrV nm strExceptionS then
      match prolog_args j with
      | none => (flag, .pyFault)
      | some a =>
        match pyIndex0 a with
        | none => (flag, .pyFault)
        | some arg0 =>
          if isStrV arg0 strNoMoreResultsS then (flag, .ret .pynone)
          else if isStrV arg0 strConnectionFailedS then
            (true, mkRaise .connectionFailed j)
          else if isStrV arg0 strTimeLimitS then (flag, mkRaise .queryTimeout j)
          else if isStrV arg0 strNoQueryS then (flag, mkRaise .noQuery j)
          else if isStrV arg0 strCancelGoalS then (flag, mkRaise .queryCancelled j)
          else if isStrV arg0 strResultNotAvailableS then
            (flag, mkRaise .resultNotAvailable j)
          else (flag, mkRaise .generic j)
    else if isStrV nm strFalseS then (flag, .ret (.pybool false))
    else if isStrV nm strTrueS then
      match prolog_args j with
      | none => (flag, .pyFault)
      | some a =>
        match pyIndex0 a with
        | none => (flag, .pyFault)
        | some bindings =>
          match bindings with
          | .plist bss =>
            match buildAnswers bss with
            | none => (flag, .pyFault)
            | some answerList => (flag, .ret (collapseAnswerList answerList))
          | _ => (flag, .pyFault)
    else (flag, .ret (.pyjson j))

/-! ### The framed-transport receive loop (`PrologThread._receive`)

The loop is driven by the successive values returned by
`self._socket.recv(4096)`. Its mutable state — `sizeBytes`,
`amount_expected`, `bytesReceived` — is captured by `RState`; one recv
result is folded into the state bytewise exactly as the Python `for`
loop does. -/

/-- The receive-loop state: still scanning the length header (with the
digit bytes accumulated so far, keepalive dots already discarded), or
accumulating the body (`amount_expected` known, bytes received so far),
or a raised `ValueError` from `int()` on a malformed header. -/
inductive RState where
  | header (sizeBytes : Bytes)
  | body (expected : Nat) (received : Bytes)
  | fault
deriving DecidableEq

/-- One byte of one recv result, folded into the state: in header mode a
`.` (46) is discarded, a newline (10) converts the accumulated digits via
`int()` and switches to body mode (any remaining bytes of the same read
then land in the body), any other byte is appended to `sizeBytes`; in
body mode every byte is appended to `bytesReceived`. -/
def stepByte : RState → Nat → RState
  | .header s, b =>
    if b = 46 then .header s
    else if b = 10 then
      match pyIntBytes s with
      | some n => .body n []
      | none => .fault
    else .header (s ++ [b])
  | .body e r, b => .body e (r ++ [b])
  | .fault, _ => .fault

/-- Fold one whole recv result into the state. -/
def processBytes (s : RState) (c : Bytes) : RState := c.foldl stepByte s

/-- The `while` condition and exit of `_receive`, checked between reads:
`some` when the loop stops — either raising the pending `ValueError`
(`Except.error`) or returning the accumulated body bytes once
`amount_received >= amount_expected` (`Except.ok`); `none` while the loop
would call `recv` again. -/
def rstateDone : RState → Option (Except Unit Bytes)
  | .fault => some (.error ())
  | .body e r => if e ≤ r.length then some (.ok r) else none
  | .header _ => none

/-- Run the receive loop against the given list of successive recv
results. The result is `some (.ok bytes)` when `_receive` returns these
body bytes, `some (.error ())` when it raises `ValueError`, and `none`
when it exhausts the reads without completing — on a closed connection
`recv` keeps returning `b""`, so `none` means `_receive` never returns. -/
def receiveRun : RState → List Bytes → Option (Except Unit Bytes)
  | s, [] => rstateDone s
  | s, c :: cs =>
    match rstateDone s with
    | some v => some v
    | none => receiveRun (processBytes s c) cs

/-- `PrologThread._receive` at the byte level, from the initial state. -/
def receiveBytes (chunks : List Bytes) : Option (Except Unit Bytes) :=
  receiveRun (.header []) chunks

/-- `PrologThread._receive` including the final
`bytesReceived.decode("utf-8")`: the returned string, a raised error
(`ValueError` or `UnicodeDecodeError`), or no return at all. -/
def receiveStr (chunks : List Bytes) : Option (Except Unit PyStr) :=
  match receiveBytes chunks with
  | none => none
  | some (.error e) => some (.error e)
  | some (.ok bs) =>
    match utf8Decode bs with
    | some s => some (.ok s)
    | none => some (.error ())

/-! ### The framed-transport send path (`PrologThread._send`) -/

/-- The normalized body text `_send` builds: strip surrounding whitespace,
strip trailing dots and newlines, then append the canonical `.\n`. -/
def sendBodyText (value : PyStr) : PyStr :=
  pyRstripDotNL (pyStrip value) ++ ['.', '\n']

/-- The UTF-8 body bytes `_send` writes (`utf8Value`). -/
def sendBody (value : PyStr) : Bytes := utf8Encode (sendBodyText value)

/-- The header bytes `_send` writes (`msgHeader`):
`"{}.\n".format(str(len(utf8Value))).encode("utf-8")`. -/
def sendHeader (value : PyStr) : Bytes :=
  utf8Encode (pyStrOfNat (sendBody value).length ++ ['.', '\n'])

/-- `PrologThread._send(value)`: the two `sendall` writes, header first. -/
def sendModel (value : PyStr) : Bytes × Bytes :=
  (sendHeader value, sendBody value)

/-! ### Query transport and the connection_failed flag

`PrologThread.query`, `query_async`, `query_async_result` and
`cancel_query_async` all perform: `_send` (no try/except around it), then
`_return_prolog_response`, which starts with `_receive` and `json.loads`.
The wire behaviour of one such exchange is modelled by `WireEvent`;
`json.loads` is an external library function and is passed in as a total
`Option`-valued parameter (its internals matter to no claim). -/

/-- What the socket does during one query exchange. -/
inductive WireEvent where
  | sendFault
  | recvReads (chunks : List Bytes)

/-- The observable outcome of one query-family call. -/
inductive QOutcome where
  | ret (v : PyVal)
  | raised (e : PrologErr)
  | pyFault
  | osError
  | valueError
  | unicodeError
  | jsonError
  | blocked
deriving Inhabited

/-- One query-family exchange (`query` / `query_async` /
`query_async_result` / `cancel_query_async` after its `_send`): the
server handle's `connection_failed` flag before the call is threaded
through to the flag after it. A socket error on `sendall` propagates as
`OSError`; a malformed length header propagates as `ValueError`; an
undecodable body as `UnicodeDecodeError`; an unparsable message as the
`json.loads` error; a read sequence that never completes blocks forever.
None of these touch the flag — only `_return_prolog_response` itself
changes it. -/
def queryExchange (loads : PyStr → Option PJson) (flag : Bool)
    (w : WireEvent) : Bool × QOutcome :=
  match w with
  | .sendFault => (flag, .osError)
  | .recvReads chunks =>
    match receiveStr chunks with
    | none => (flag, .blocked)
    | some (.error _) => (flag, .valueError)
    | some (.ok msg) =>
      match loads msg with
      | none => (flag, .jsonError)
      | some j =>
        match returnPrologResponse flag j with
        | (flag2, .ret v) => (flag2, .ret v)
        | (flag2, .raised e) => (flag2, .raised e)
        | (flag2, .pyFault) => (flag2, .pyFault)

/-! ### Stop and halt paths (`PrologThread.stop`, `halt_server`,
`PrologServer.stop`) -/

/-- What the wire does during a close/quit handshake: an `OSError` from
`_send`/`_receive`, or a decoded reply term. -/
inductive StopWire where
  | osFault
  | reply (j : PJson)

/-- How a stop/halt call ends: a normal return, a raised typed
`PrologError`, an untyped Python fault, or a propagated `OSError`. -/
inductive StopOutcome where
  | ok
  | raised (e : PrologErr)
  | pyFault
  | osError

/-- The `PrologThread` state the stop path touches. -/
structure ThreadState where
  flag : Bool
  socketOpen : Bool
deriving DecidableEq

/-- `PrologThread.stop()`: if the socket is open and the handle's
`connection_failed` flag is unset, send `close.\n` and read the reply,
swallowing only `OSError`; then close the socket. A reply that
`_return_prolog_response` turns into a raised exception (a `PrologError`
subclass or a Python fault — neither is an `OSError`) propagates out of
`stop` before `self._socket.close()` is reached, leaving the socket open.
The last component records whether the close handshake was attempted. -/
def threadStop (st : ThreadState) (w : StopWire) :
    ThreadState × StopOutcome × Bool :=
  if !st.socketOpen then (st, .ok, false)
  else if st.flag then (⟨st.flag, false⟩, .ok, false)
  else
    match w with
    | .osFault => (⟨st.flag, false⟩, .ok, true)
    | .reply j =>
      match returnPrologResponse st.flag j with
      | (flag2, .ret _) => (⟨flag2, false⟩, .ok, true)
      | (flag2, .raised e) => (⟨flag2, true⟩, .raised e, true)
      | (flag2, .pyFault) => (⟨flag2, true⟩, .pyFault, true)

/-- `PrologThread.halt_server()`: send `quit.\n`, wait for the reply, and
only after a non-raising reply set the handle's `connection_failed` flag
to `True`. An `OSError` from the exchange, or a reply classified as a
raised exception, propagates before the assignment (though the
`connection_failed` reply branch sets the flag itself). -/
def haltServer (flag : Bool) (w : StopWire) : Bool × StopOutcome :=
  match w with
  | .osFault => (flag, .osError)
  | .reply j =>
    match returnPrologResponse flag j with
    | (_, .ret _) => (true, .ok)
    | (flag2, .raised e) => (flag2, .raised e)
    | (flag2, .pyFault) => (flag2, .pyFault)

/-- What `PrologServer.stop` did to the launched process. -/
inductive SrvAction where
  | killed
  | halted
deriving DecidableEq

/-- `PrologServer.stop(kill)` for a handle that launched a process:
`kill=True` or a set `connection_failed` flag uses `subprocess.kill()`;
otherwise a session is created and `halt_server` performs the graceful
exchange (the session's own `stop` then runs with the flag as
`halt_server` left it). Without a process the call does nothing. The
result is the flag afterwards and the action taken on the process. -/
def serverStop (flag : Bool) (hasProcess : Bool) (kill : Bool)
    (w : StopWire) : Bool × Option SrvAction :=
  if !hasProcess then (flag, none)
  else if kill || flag then (flag, some .killed)
  else
    let (flag2, _) := haltServer flag w
    (flag2, some .halted)

/-- The initial value of the handle's flag (`PrologServer.__init__`:
`self.connection_failed = False`). -/
def initConnectionFailed : Bool := false

/-- Every operation of `PrologServer` / `PrologThread` that can touch the
handle's `connection_failed` flag, with enough wire context to determine
the flag afterwards. `classify` stands for any query-family call reaching
`_return_prolog_response` (the only place besides `halt_server` that
assigns the flag); `transportFault` stands for any operation aborted by a
socket or parse error before a reply was classified. -/
inductive HandleOp where
  | classify (j : PJson)
  | transportFault
  | haltSrv (w : StopWire)
  | thrStop (socketOpen : Bool) (w : StopWire)
  | srvStop (hasProcess kill : Bool) (w : StopWire)

/-- The handle's `connection_failed` flag after one operation. -/
def flagAfter (flag : Bool) : HandleOp → Bool
  | .classify j => (returnPrologResponse flag j).1
  | .transportFault => flag
  | .haltSrv w => (haltServer flag w).1
  | .thrStop so w => ((threadStop ⟨flag, so⟩ w).1).flag
  | .srvStop hp k w => (serverStop flag hp k w).1

/-! ### Statement helpers

Shapes of well-formed replies and the values the spec expects for them,
used to state the claims; they build inputs for, and describe outputs of,
the definitions above. -/

/-- The decoded form of a serialized compound `nm(args...)`:
`{"functor": nm, "args": [...]}`. -/
def compoundOf (nm : PyStr) (args : List PJson) : PJson :=
  .pobj [(strFunctorS, .pstr nm), (strArgsS, .plist args)]

/-- A well-formed `exception(Inner)` reply. -/
def excReply (t : PJson) : PJson := compoundOf strExceptionS [t]

/-- One decoded `=(VarName, Term)` binding. -/
def bindingTerm (v : PyStr) (t : PJson) : PJson :=
  compoundOf ['='] [.pstr v, t]

/-- One decoded answer-binding list. -/
def bindingList (bs : List (PyStr × PJson)) : PJson :=
  .plist (bs.map (fun p => bindingTerm p.1 p.2))

/-- A well-formed `true([[...],...])` reply with the given binding lists. -/
def trueReply (bss : List (List (PyStr × PJson))) : PJson :=
  compoundOf strTrueS [.plist (bss.map bindingList)]

/-- The answer the spec expects for one binding list: the boolean true
marker when it is empty, otherwise the variable-to-term dict. -/
def expectedAnswer (bs : List (PyStr × PJson)) : PAnswer :=
  if bs.isEmpty then .ptrue
  else .pdict (bs.map (fun p => (PKey.kstr p.1, p.2)))

/-- A stand-in for `json.loads` used by closed counterexample inputs on
paths that never reach it. -/
def loadsStub : PyStr → Option PJson := fun _ => none

/-- A byte is a keepalive dot or a decimal digit (the bytes a length
header may contain). -/
def dotOrDigit (b : Nat) : Prop := b = 46 ∨ (48 ≤ b ∧ b ≤ 57)

instance : DecidablePred dotOrDigit := fun b => by unfold dotOrDigit; infer_instance

/-! ## Lemmas -/

theorem charOfNat_toNat_small {n : Nat} (h : n < 55296) :
    (Char.ofNat n).toNat = n := by
  unfold Char.ofNat
  rw [dif_pos (Or.inl h)]
  rfl

theorem utf8Bytes_small {n : Nat} (h : n < 128) :
    utf8Bytes (Char.ofNat n) = [n] := by
  have ht : (Char.ofNat n).toNat = n := charOfNat_toNat_small (by omega)
  simp [utf8Bytes, ht, h]

theorem utf8Encode_append (s t : PyStr) :
    utf8Encode (s ++ t) = utf8Encode s ++ utf8Encode t := by
  simp [utf8Encode]

theorem foldl_digits_rev (L : List Nat) (a : Nat) :
    (L.reverse).foldl (fun acc d => acc * 10 + d) a =
      a * 10 ^ L.length + Nat.ofDigits 10 L := by
  induction L generalizing a with
  | nil => simp
  | cons d L ih =>
    rw [List.reverse_cons, List.foldl_append, ih]
    simp [Nat.ofDigits_cons, pow_succ]
    ring

theorem pyIntBytes_digitBytes (n : Nat) :
    pyIntBytes (digitBytesOfNat n) = some n := by
  by_cases h0 : n = 0
  · subst h0; rfl
  · have hne : Nat.digits 10 n ≠ [] := Nat.digits_ne_nil_iff_ne_zero.mpr h0
    have hdig : ∀ d ∈ Nat.digits 10 n, d < 10 :=
      fun d hd => Nat.digits_lt_base (by norm_num) hd
    unfold digitBytesOfNat pyIntBytes
    rw [if_neg h0]
    rw [if_pos]
    · congr 1
      rw [List.foldl_map]
      have : ∀ (L : List Nat) (a : Nat),
          L.foldl (fun acc d => acc * 10 + (48 + d - 48)) a =
          L.foldl (fun acc d => acc * 10 + d) a := by
        intro L
        induction L with
        | nil => intro a; rfl
        | cons x xs ih => intro a; simp only [List.foldl_cons, ih]; congr 2; omega
      rw [this, foldl_digits_rev, Nat.ofDigits_digits]
      simp
    · constructor
      · simp [hne]
      · intro b hb
        simp only [List.mem_map, List.mem_reverse] at hb
        obtain ⟨d, hd, rfl⟩ := hb
        have := hdig d hd
        omega

theorem utf8Encode_digits (n : Nat) :
    utf8Encode (pyStrOfNat n) = digitBytesOfNat n := by
  by_cases h0 : n = 0
  · subst h0; rfl
  · unfold pyStrOfNat digitBytesOfNat
    rw [if_neg h0, if_neg h0]
    have hdig : ∀ d ∈ (Nat.digits 10 n).reverse, d < 10 :=
      fun d hd => Nat.digits_lt_base (by norm_num) (List.mem_reverse.mp hd)
    generalize hL : (Nat.digits 10 n).reverse = L at hdig ⊢
    clear hL
    induction L with
    | nil => rfl
    | cons d L ih =>
      have hd : d < 10 := hdig d (by simp)
      have := utf8Bytes_small (n := 48 + d) (by omega)
      simp only [List.map_cons, utf8Encode, List.flatMap_cons] at *
      rw [this]
      have := ih (fun x hx => hdig x (by simp [hx]))
      simp only [utf8Encode] at this
      simp [this]

theorem sendHeader_eq (value : PyStr) :
    sendHeader value = digitBytesOfNat (sendBody value).length ++ [46, 10] := by
  unfold sendHeader
  rw [utf8Encode_append, utf8Encode_digits]
  rfl

theorem processBytes_nil (s : RState) : processBytes s [] = s := rfl

theorem processBytes_append (s : RState) (a b : Bytes) :
    processBytes s (a ++ b) = processBytes (processBytes s a) b :=
  List.foldl_append _ _ _ _

theorem processBytes_body (e : Nat) (r c : Bytes) :
    processBytes (.body e r) c = .body e (r ++ c) := by
  induction c generalizing r with
  | nil => simp [processBytes]
  | cons b c ih =>
    show processBytes (stepByte (.body e r) b) c = _
    rw [show stepByte (.body e r) b = .body e (r ++ [b]) from rfl, ih]
    simp

theorem processBytes_header_digits (s c : Bytes)
    (h : ∀ b ∈ c, dotOrDigit b) :
    processBytes (.header s) c =
      .header (s ++ c.filter (fun b => b ≠ 46)) := by
  induction c generalizing s with
  | nil => simp [processBytes]
  | cons b c ih =>
    have hb : dotOrDigit b := h b (by simp)
    have hrest : ∀ x ∈ c, dotOrDigit x := fun x hx => h x (by simp [hx])
    show processBytes (stepByte (.header s) b) c = _
    rcases hb with hb | hb
    · subst hb
      rw [show stepByte (.header s) 46 = .header s from rfl, ih s hrest]
      simp
    · have h46 : b ≠ 46 := by omega
      have h10 : b ≠ 10 := by omega
      rw [show stepByte (.header s) b = .header (s ++ [b]) by
        simp [stepByte, h46, h10]]
      rw [ih (s ++ [b]) hrest]
      simp [List.filter_cons, h46]

theorem receiveRun_body_exact (chunks : List Bytes) :
    ∀ r : Bytes,
      receiveRun (.body (r.length + chunks.flatten.length) r) chunks =
        some (.ok (r ++ chunks.flatten)) := by
  induction chunks with
  | nil => intro r; simp [receiveRun, rstateDone]
  | cons c cs ih =>
    intro r
    show (match rstateDone (.body (r.length + (c :: cs).flatten.length) r) with
      | some v => some v
      | none =>
        receiveRun
          (processBytes (.body (r.length + (c :: cs).flatten.length) r) c)
          cs) = _
    rcases Nat.eq_zero_or_pos (c :: cs).flatten.length with hz | hp
    · have hc : c = [] := by
        simp only [List.flatten_cons, List.length_append] at hz
        have := Nat.eq_zero_of_add_eq_zero_right hz
        exact List.eq_nil_of_length_eq_zero (by omega)
      have hcs : cs.flatten = [] := by
        simp only [List.flatten_cons, List.length_append] at hz
        exact List.eq_nil_of_length_eq_zero (by omega)
      rw [show rstateDone (.body (r.length + (c :: cs).flatten.length) r) =
          some (.ok r) by simp only [rstateDone]; rw [if_pos (by omega)]]
      rw [List.flatten_cons, hc, hcs]
      simp
    · rw [show rstateDone (.body (r.length + (c :: cs).flatten.length) r) =
          none by simp only [rstateDone]; rw [if_neg (by omega)]]
      rw [processBytes_body]
      have := ih (r ++ c)
      rw [show (r ++ c).length + cs.flatten.length =
          r.length + (c :: cs).flatten.length by simp; omega] at this
      rw [this]
      simp

theorem receiveRun_header_step (s : Bytes) (c : Bytes) (cs : List Bytes) :
    receiveRun (.header s) (c :: cs) =
      receiveRun (processBytes (.header s) c) cs := rfl

theorem receiveRun_header_exact :
    ∀ (chunks : List Bytes) (s hdr body : Bytes),
      (∀ b ∈ hdr, dotOrDigit b) →
      pyIntBytes (s ++ hdr.filter (fun b => b ≠ 46)) = some body.length →
      chunks.flatten = hdr ++ 10 :: body →
      receiveRun (.header s) chunks = some (.ok body) := by
  intro chunks
  induction chunks with
  | nil =>
    intro s hdr body _ _ hjoin
    simp only [List.flatten_nil] at hjoin
    exact absurd hjoin.symm (by simp)
  | cons c cs ih =>
    intro s hdr body hdig hparse hjoin
    rw [receiveRun_header_step]
    rw [List.flatten_cons] at hjoin
    rcases List.append_eq_append_iff.mp hjoin with ⟨a, ha1, ha2⟩ | ⟨t, ht1, ht2⟩
    · have hcd : ∀ b ∈ c, dotOrDigit b := fun b hb =>
        hdig b (by rw [ha1]; exact List.mem_append_left _ hb)
      have had : ∀ b ∈ a, dotOrDigit b := fun b hb =>
        hdig b (by rw [ha1]; exact List.mem_append_right _ hb)
      rw [processBytes_header_digits s c hcd]
      apply ih _ a body had _ ha2
      rw [List.append_assoc, ← List.filter_append, ← ha1]
      exact hparse
    · cases t with
      | nil =>
        rw [List.append_nil] at ht1
        subst ht1
        rw [processBytes_header_digits s c hdig]
        apply ih _ [] body (by simp) _ (by simpa using ht2.symm)
        simpa using hparse
      | cons b t2 =>
        obtain ⟨hb10, hbody⟩ := List.cons_eq_cons.mp ht2
        have hb10 : b = 10 := hb10.symm
        have hbody : body = t2 ++ cs.flatten := by simpa using hbody
        subst hb10
        rw [ht1, show hdr ++ 10 :: t2 = (hdr ++ [10]) ++ t2 by simp]
        rw [processBytes_append, processBytes_append,
          processBytes_header_digits s hdr hdig]
        rw [show processBytes (.header (s ++ hdr.filter (fun b => b ≠ 46))) [10]
            = .body body.length [] by
          show stepByte (.header _) 10 = _
          simp only [ne_eq, decide_not] at hparse
          simp [stepByte, hparse]]
        rw [processBytes_body]
        have := receiveRun_body_exact cs t2
        rw [show t2.length + cs.flatten.length = body.length by
          rw [hbody]; simp] at this
        rw [List.nil_append, this, ← hbody]

theorem receiveRun_body_short :
    ∀ (chunks : List Bytes) (e : Nat) (r : Bytes),
      r.length + chunks.flatten.length < e →
      receiveRun (.body e r) chunks = none := by
  intro chunks
  induction chunks with
  | nil =>
    intro e r h
    show rstateDone (.body e r) = none
    simp only [rstateDone]
    rw [if_neg (by omega)]
  | cons c cs ih =>
    intro e r h
    rw [List.flatten_cons, List.length_append] at h
    show (match rstateDone (.body e r) with
      | some v => some v
      | none => receiveRun (processBytes (.body e r) c) cs) = none
    rw [show rstateDone (.body e r) = none by
      simp only [rstateDone]; rw [if_neg (by omega)]]
    rw [processBytes_body]
    exact ih e (r ++ c) (by simp only [List.length_append]; omega)

theorem receiveRun_header_short :
    ∀ (chunks : List Bytes) (s hdr body rest : Bytes),
      (∀ b ∈ hdr, dotOrDigit b) →
      pyIntBytes (s ++ hdr.filter (fun b => b ≠ 46)) = some body.length →
      chunks.flatten ++ rest = hdr ++ 10 :: body →
      rest ≠ [] →
      receiveRun (.header s) chunks = none := by
  intro chunks
  induction chunks with
  | nil => intro s hdr body rest _ _ _ _; rfl
  | cons c cs ih =>
    intro s hdr body rest hdig hparse hjoin hrest
    rw [receiveRun_header_step]
    rw [List.flatten_cons, List.append_assoc] at hjoin
    rcases List.append_eq_append_iff.mp hjoin with ⟨a, ha1, ha2⟩ | ⟨t, ht1, ht2⟩
    · have hcd : ∀ b ∈ c, dotOrDigit b := fun b hb =>
        hdig b (by rw [ha1]; exact List.mem_append_left _ hb)
      have had : ∀ b ∈ a, dotOrDigit b := fun b hb =>
        hdig b (by rw [ha1]; exact List.mem_append_right _ hb)
      rw [processBytes_header_digits s c hcd]
      apply ih _ a body rest had _ ha2 hrest
      rw [List.append_assoc, ← List.filter_append, ← ha1]
      exact hparse
    · cases t with
      | nil =>
        rw [List.append_nil] at ht1
        subst ht1
        rw [processBytes_header_digits s c hdig]
        apply ih _ [] body rest (by simp) _ (by simpa using ht2.symm) hrest
        simpa using hparse
      | cons b t2 =>
        obtain ⟨hb10, hbody⟩ := List.cons_eq_cons.mp ht2
        have hb10 : b = 10 := hb10.symm
        have hbody : body = t2 ++ (cs.flatten ++ rest) := by simpa using hbody
        subst hb10
        rw [ht1, show hdr ++ 10 :: t2 = (hdr ++ [10]) ++ t2 by simp]
        rw [processBytes_append, processBytes_append,
          processBytes_header_digits s hdr hdig]
        rw [show processBytes (.header (s ++ hdr.filter (fun b => b ≠ 46))) [10]
            = .body body.length [] by
          show stepByte (.header _) 10 = _
          simp only [ne_eq, decide_not] at hparse
          simp [stepByte, hparse]]
        rw [processBytes_body, List.nil_append]
        apply receiveRun_body_short
        rw [hbody]
        have : rest.length ≠ 0 := fun h => hrest (List.eq_nil_of_length_eq_zero h)
        simp only [List.length_append]
        omega

theorem char_valid_nat (c : Char) :
    c.toNat < 55296 ∨ (57343 < c.toNat ∧ c.toNat < 1114112) := c.valid

theorem utf8Bytes_head_tail (c : Char) : ∃ b t, utf8Bytes c = b :: t := by
  unfold utf8Bytes
  by_cases h1 : c.toNat < 128
  · rw [if_pos h1]; exact ⟨_, _, rfl⟩
  · rw [if_neg h1]
    by_cases h2 : c.toNat < 2048
    · rw [if_pos h2]; exact ⟨_, _, rfl⟩
    · rw [if_neg h2]
      by_cases h3 : c.toNat < 65536
      · rw [if_pos h3]; exact ⟨_, _, rfl⟩
      · rw [if_neg h3]; exact ⟨_, _, rfl⟩

theorem utf8DecodeOne_encode (c : Char) (b : Nat) (t bs : Bytes)
    (h : utf8Bytes c = b :: t) :
    utf8DecodeOne b (t ++ bs) = some (c, bs) := by
  have hval := char_valid_nat c
  unfold utf8Bytes at h
  by_cases h1 : c.toNat < 128
  · rw [if_pos h1] at h
    obtain ⟨rfl, rfl⟩ := List.cons_eq_cons.mp h.symm
    unfold utf8DecodeOne
    rw [if_pos h1, Char.ofNat_toNat]
    rfl
  · rw [if_neg h1] at h
    by_cases h2 : c.toNat < 2048
    · rw [if_pos h2] at h
      obtain ⟨rfl, rfl⟩ := List.cons_eq_cons.mp h.symm
      unfold utf8DecodeOne
      rw [if_neg (by omega), if_neg (by omega), if_pos (by omega)]
      show (if 128 ≤ 128 + c.toNat % 64 && 128 + c.toNat % 64 < 192 then _ else _)
        = _
      rw [if_pos (by simp; omega)]
      simp only
      rw [if_pos (by omega)]
      rw [show (192 + c.toNat / 64 - 192) * 64 + (128 + c.toNat % 64 - 128)
          = c.toNat by omega]
      rw [Char.ofNat_toNat]
      rfl
    · rw [if_neg h2] at h
      by_cases h3 : c.toNat < 65536
      · rw [if_pos h3] at h
        obtain ⟨rfl, rfl⟩ := List.cons_eq_cons.mp h.symm
        unfold utf8DecodeOne
        rw [if_neg (by omega), if_neg (by omega), if_neg (by omega),
          if_pos (by omega)]
        show (if (128 ≤ 128 + c.toNat / 64 % 64 && 128 + c.toNat / 64 % 64 < 192)
            && (128 ≤ 128 + c.toNat % 64 && 128 + c.toNat % 64 < 192)
            then _ else _) = _
        rw [if_pos (by simp; omega)]
        simp only
        rw [if_pos (by simp; omega)]
        rw [show (224 + c.toNat / 4096 - 224) * 4096 +
            (128 + c.toNat / 64 % 64 - 128) * 64 + (128 + c.toNat % 64 - 128)
            = c.toNat by omega]
        rw [Char.ofNat_toNat]
        rfl
      · rw [if_neg h3] at h
        have h4 : c.toNat < 1114112 := by omega
        obtain ⟨rfl, rfl⟩ := List.cons_eq_cons.mp h.symm
        unfold utf8DecodeOne
        rw [if_neg (by omega), if_neg (by omega), if_neg (by omega),
          if_neg (by omega), if_pos (by omega)]
        show (if (128 ≤ 128 + c.toNat / 4096 % 64 && 128 + c.toNat / 4096 % 64 < 192)
            && ((128 ≤ 128 + c.toNat / 64 % 64 && 128 + c.toNat / 64 % 64 < 192)
              && (128 ≤ 128 + c.toNat % 64 && 128 + c.toNat % 64 < 192))
            then _ else _) = _
        rw [if_pos (by simp; omega)]
        simp only
        rw [if_pos (by simp; omega)]
        rw [show (240 + c.toNat / 262144 - 240) * 262144 +
            (128 + c.toNat / 4096 % 64 - 128) * 4096 +
            (128 + c.toNat / 64 % 64 - 128) * 64 + (128 + c.toNat % 64 - 128)
            = c.toNat by omega]
        rw [Char.ofNat_toNat]
        rfl

theorem utf8DecodeFuel_encode :
    ∀ (s : PyStr) (fuel : Nat), (utf8Encode s).length ≤ fuel →
      utf8DecodeFuel fuel (utf8Encode s) = some s := by
  intro s
  induction s with
  | nil => intro fuel _; cases fuel <;> rfl
  | cons c s ih =>
    intro fuel hf
    obtain ⟨b, t, hb⟩ := utf8Bytes_head_tail c
    have henc : utf8Encode (c :: s) = b :: (t ++ utf8Encode s) := by
      rw [show utf8Encode (c :: s) = utf8Bytes c ++ utf8Encode s from rfl, hb]
      simp
    rw [henc] at hf ⊢
    cases fuel with
    | zero => simp at hf
    | succ f =>
      show (match utf8DecodeOne b (t ++ utf8Encode s) with
        | some (c, rest2) =>
          match utf8DecodeFuel f rest2 with
          | some s => some (c :: s)
          | none => none
        | none => none) = some (c :: s)
      rw [utf8DecodeOne_encode c b t (utf8Encode s) hb]
      show (match utf8DecodeFuel f (utf8Encode s) with
        | some s0 => some (c :: s0)
        | none => none) = some (c :: s)
      rw [ih f (by simp at hf; omega)]

theorem utf8Decode_encode (s : PyStr) : utf8Decode (utf8Encode s) = some s :=
  utf8DecodeFuel_encode s (utf8Encode s).length le_rfl

theorem prolog_name_compound (nm : PyStr) (args : List PJson) :
    prolog_name (compoundOf nm args) = some (.pstr nm) := rfl

theorem prolog_args_compound (nm : PyStr) (args : List PJson) :
    prolog_args (compoundOf nm args) = some (.plist args) := rfl

theorem prologErrInit_excReply (t : PJson) :
    prologErrInit (excReply t) = some t := rfl

theorem mkRaise_excReply (k : PErrKind) (t : PJson) :
    mkRaise k (excReply t) = .raised ⟨k, t⟩ := rfl

theorem returnPrologResponse_exc (flag : Bool) (t : PJson) :
    returnPrologResponse flag (excReply t) =
      if isStrV t strNoMoreResultsS then (flag, .ret .pynone)
      else if isStrV t strConnectionFailedS then
        (true, .raised ⟨.connectionFailed, t⟩)
      else if isStrV t strTimeLimitS then (flag, .raised ⟨.queryTimeout, t⟩)
      else if isStrV t strNoQueryS then (flag, .raised ⟨.noQuery, t⟩)
      else if isStrV t strCancelGoalS then (flag, .raised ⟨.queryCancelled, t⟩)
      else if isStrV t strResultNotAvailableS then
        (flag, .raised ⟨.resultNotAvailable, t⟩)
      else (flag, .raised ⟨.generic, t⟩) := rfl

theorem returnPrologResponse_false (flag : Bool) (args : List PJson) :
    returnPrologResponse flag (compoundOf strFalseS args) =
      (flag, .ret (.pybool false)) := rfl

theorem dictInsert_notmem (acc : PyDict) (k : PKey) (v : PJson)
    (h : ∀ q ∈ acc, q.1 ≠ k) : dictInsert acc k v = acc ++ [(k, v)] := by
  unfold dictInsert
  rw [if_neg]
  simp only [List.any_eq_true, decide_eq_true_eq]
  rintro ⟨q, hq, hqe⟩
  exact h q hq hqe

theorem buildDictLoop_cons_binding (acc : PyDict) (v : PyStr) (t : PJson)
    (rest : List PJson) :
    buildDictLoop acc (bindingTerm v t :: rest) =
      buildDictLoop (dictInsert acc (.kstr v) t) rest := rfl

theorem buildDictLoop_bindings :
    ∀ (bs : List (PyStr × PJson)) (acc : PyDict),
      (bs.map Prod.fst).Nodup →
      (∀ p ∈ bs, ∀ q ∈ acc, q.1 ≠ PKey.kstr p.1) →
      buildDictLoop acc (bs.map (fun p => bindingTerm p.1 p.2)) =
        some (acc ++ bs.map (fun p => (PKey.kstr p.1, p.2))) := by
  intro bs
  induction bs with
  | nil => intro acc _ _; simp [buildDictLoop]
  | cons p bs ih =>
    intro acc hnd hdisj
    rw [List.map_cons, buildDictLoop_cons_binding]
    rw [dictInsert_notmem acc _ p.2 (hdisj p (by simp))]
    rw [ih (acc ++ [(PKey.kstr p.1, p.2)]) (by simpa using hnd.of_cons)]
    · simp
    · intro q hq r hr
      rcases List.mem_append.mp hr with hr | hr
      · exact hdisj q (by simp [hq]) r hr
      · have : r = (PKey.kstr p.1, p.2) := by simpa using hr
        subst this
        simp only [ne_eq, PKey.kstr.injEq]
        intro hcontra
        rw [List.map_cons, List.nodup_cons] at hnd
        exact hnd.1 (hcontra ▸ List.mem_map_of_mem Prod.fst hq)

theorem buildAnswers_cons_empty (rest : List PJson) :
    buildAnswers (PJson.plist [] :: rest) =
      match buildAnswers rest with
      | some others => some (.ptrue :: others)
      | none => none := rfl

theorem buildAnswers_cons_list (aa : PJson) (aas rest : List PJson) :
    buildAnswers (PJson.plist (aa :: aas) :: rest) =
      match buildDictLoop [] (aa :: aas) with
      | some d =>
        match buildAnswers rest with
        | some others => some (.pdict d :: others)
        | none => none
      | none => none := by
  show (match (if (aa :: aas).length = 0 then some PAnswer.ptrue
         else match buildDictLoop [] (aa :: aas) with
              | some d => some (.pdict d)
              | none => none : Option PAnswer) with
    | some a =>
      match buildAnswers rest with
      | some others => some (a :: others)
      | none => none
    | none => none) = _
  rw [if_neg (by simp)]
  cases buildDictLoop [] (aa :: aas) with
  | none => rfl
  | some d => rfl

theorem buildAnswers_bindings :
    ∀ (bss : List (List (PyStr × PJson))),
      (∀ bs ∈ bss, (bs.map Prod.fst).Nodup) →
      buildAnswers (bss.map bindingList) = some (bss.map expectedAnswer) := by
  intro bss
  induction bss with
  | nil => intro _; rfl
  | cons bs bss ih =>
    intro h
    have hrest := ih (fun b hb => h b (by simp [hb]))
    cases bs with
    | nil =>
      rw [List.map_cons, show bindingList [] = PJson.plist [] from rfl,
        buildAnswers_cons_empty, hrest]
      rfl
    | cons p ps =>
      have hloop := buildDictLoop_bindings (p :: ps) []
        (h (p :: ps) (by simp)) (by simp)
      rw [List.map_cons,
        show bindingList (p :: ps) =
          PJson.plist (bindingTerm p.1 p.2 :: ps.map (fun q => bindingTerm q.1 q.2))
          from rfl,
        buildAnswers_cons_list]
      rw [show bindingTerm p.1 p.2 :: ps.map (fun q => bindingTerm q.1 q.2) =
        (p :: ps).map (fun q => bindingTerm q.1 q.2) from rfl, hloop, hrest]
      rfl

theorem returnPrologResponse_true (flag : Bool)
    (bss : List (List (PyStr × PJson)))
    (h : ∀ bs ∈ bss, (bs.map Prod.fst).Nodup) :
    returnPrologResponse flag (trueReply bss) =
      (flag, .ret (collapseAnswerList (bss.map expectedAnswer))) := by
  have hba := buildAnswers_bindings bss h
  show (match buildAnswers (bss.map bindingList) with
    | none => (flag, ROutcome.pyFault)
    | some answerList => (flag, .ret (collapseAnswerList answerList))) = _
  rw [hba]

theorem collapseAnswerList_ne_singleton_empty
    (bss : List (List (PyStr × PJson))) (h : bss ≠ [[]]) :
    collapseAnswerList (bss.map expectedAnswer) =
      .pylist (bss.map expectedAnswer) := by
  match bss with
  | [] => rfl
  | [[]] => exact absurd rfl h
  | [p :: ps] => rfl
  | bs1 :: bs2 :: rest =>
    cases bs1 <;> rfl

theorem is_prolog_atom_head (c : Char) (cs : PyStr)
    (h : is_prolog_atom (.pstr (c :: cs)) = some true) :
    pyIsUpper c = false ∧ c ≠ '_' := by
  unfold is_prolog_atom is_prolog_variable at h
  simp only [Option.some.injEq, Bool.not_eq_eq_eq_not, Bool.not_true] at h
  constructor
  · cases hu : pyIsUpper c
    · rfl
    · rw [hu] at h; simp at h
  · intro hc
    subst hc
    simp at h

theorem quote_atom_chars (c : Char) (cs : PyStr)
    (h : is_prolog_atom (.pstr (c :: cs)) = some true) :
    quote_prolog_identifier (.pstr (c :: cs)) =
      (if !pyIsAlpha c || !pyIsAlnum ((c :: cs).filter (fun x => !(x = '_')))
       then some (.pstr (squoteC :: (c :: cs) ++ [squoteC]))
       else some (.pstr (c :: cs))) := by
  unfold quote_prolog_identifier
  rw [h]

theorem pyIsAlnum_filter_underscore (c : Char) (cs : PyStr) (hc : c ≠ '_') :
    (!pyIsAlnum ((c :: cs).filter (fun x => !(x = '_')))) = true ↔
      ∃ x ∈ c :: cs, pyIsAlnumChar x = false ∧ x ≠ '_' := by
  have hmem : c ∈ (c :: cs).filter (fun x => !(x = '_')) := by
    simp [List.mem_filter, hc]
  have hne : (c :: cs).filter (fun x => !(x = '_')) ≠ [] :=
    fun hnil => by rw [hnil] at hmem; exact absurd hmem (List.not_mem_nil c)
  unfold pyIsAlnum
  constructor
  · intro hq
    simp only [Bool.not_eq_eq_eq_not, Bool.not_true, Bool.and_eq_false_iff] at hq
    rcases hq with hq | hq
    · exact absurd (by simpa [List.isEmpty_iff] using hq) hne
    · rw [List.all_eq_false] at hq
      obtain ⟨x, hx, hxa⟩ := hq
      rw [List.mem_filter] at hx
      refine ⟨x, hx.1, ?_, by simpa using hx.2⟩
      cases hv : pyIsAlnumChar x
      · rfl
      · exact absurd hv (by simpa using hxa)
  · rintro ⟨x, hx, hxa, hxu⟩
    simp only [Bool.not_eq_eq_eq_not, Bool.not_true, Bool.and_eq_false_iff]
    right
    rw [List.all_eq_false]
    refine ⟨x, ?_, by simp [hxa]⟩
    rw [List.mem_filter]
    exact ⟨hx, by simp [hxu]⟩

theorem quoted_ne_plain (s : PyStr) :
    (PJson.pstr (squoteC :: s ++ [squoteC]) : PJson) ≠ .pstr s := by
  intro h
  have : (squoteC :: s ++ [squoteC]).length = s.length := by
    rw [PJson.pstr.injEq] at h
    rw [h]
  simp at this
  omega

theorem returnPrologResponse_flag_mono (j : PJson) :
    (returnPrologResponse true j).1 = true := by
  unfold returnPrologResponse
  repeat' split <;> try rfl

theorem haltServer_flag_mono (w : StopWire) :
    (haltServer true w).1 = true := by
  cases w with
  | osFault => rfl
  | reply j =>
    have hm := returnPrologResponse_flag_mono j
    unfold haltServer
    cases hr : returnPrologResponse true j with
    | mk flag2 r =>
      rw [hr] at hm
      cases r <;> simp_all

theorem threadStop_flag_mono (so : Bool) (w : StopWire) :
    ((threadStop ⟨true, so⟩ w).1).flag = true := by
  cases so <;> rfl

theorem serverStop_flag_mono (hp k : Bool) (w : StopWire) :
    (serverStop true hp k w).1 = true := by
  cases hp <;> cases k <;> rfl

theorem flagAfter_mono (op : HandleOp) : flagAfter true op = true := by
  cases op with
  | classify j => exact returnPrologResponse_flag_mono j
  | transportFault => rfl
  | haltSrv w => exact haltServer_flag_mono w
  | thrStop so w => exact threadStop_flag_mono so w
  | srvStop hp k w => exact serverStop_flag_mono hp k w

theorem flatten_replicate_nil (k : Nat) :
    (List.replicate k ([] : Bytes)).flatten = [] := by
  induction k with
  | zero => rfl
  | succ n ih => simp [ih]

/-- C5: for every input text, `_send` writes a body that is the input with
surrounding whitespace trimmed and trailing dots and newlines stripped,
followed by the canonical terminator, UTF-8 encoded; the header is the
decimal ASCII digits of the body's byte length followed by the bytes of
`.` and newline; and the number the header's digits denote equals the
byte length of the body that follows. -/
theorem c5_send_framing (value : PyStr) :
    sendModel value =
      (digitBytesOfNat
          (utf8Encode (pyRstripDotNL (pyStrip value) ++ ['.', '\n'])).length
        ++ [46, 10],
       utf8Encode (pyRstripDotNL (pyStrip value) ++ ['.', '\n'])) ∧
    pyIntBytes (digitBytesOfNat (sendBody value).length) =
      some (sendBody value).length := by
  constructor
  · rw [show sendModel value = (sendHeader value, sendBody value) from rfl,
      sendHeader_eq]
    rfl
  · exact pyIntBytes_digitBytes _

/-- C10: the term-classification and quoting helpers are not total on the
empty string: `is_prolog_variable("")` — and therefore
`is_prolog_atom("")`, `quote_prolog_identifier("")` and
`json_to_prolog("")` — raises `IndexError` (modelled as `none`) instead
of returning a value; on every nonempty string `is_prolog_variable`
returns whether the first character is uppercase or an underscore. -/
theorem c10_empty_string_raises :
    is_prolog_variable (.pstr []) = none ∧
    is_prolog_atom (.pstr []) = none ∧
    quote_prolog_identifier (.pstr []) = none ∧
    json_to_prolog (.pstr []) = none ∧
    ∀ (c : Char) (cs : PyStr),
      is_prolog_variable (.pstr (c :: cs)) = some (pyIsUpper c || c = '_') :=
  ⟨rfl, rfl, rfl, rfl, fun _ _ => rfl⟩

/-- C4: for every framed message — a header of keepalive dots and decimal
digits denoting the body's byte count, a newline, then the body — and
every partition of its bytes into successive reads, `_receive`
accumulates exactly the declared body (discarding the dots, taking the
digits before the newline as the length, and seeding the body with any
bytes read past the newline), and returns its UTF-8 decoding. -/
theorem c4_receive_reconstructs (chunks : List Bytes) (hdr body : Bytes)
    (hdig : ∀ b ∈ hdr, dotOrDigit b)
    (hlen : pyIntBytes (hdr.filter (fun b => b ≠ 46)) = some body.length)
    (hjoin : chunks.flatten = hdr ++ 10 :: body) :
    receiveBytes chunks = some (.ok body) ∧
    ∀ s : PyStr, body = utf8Encode s → receiveStr chunks = some (.ok s) := by
  have hmain : receiveBytes chunks = some (.ok body) := by
    unfold receiveBytes
    exact receiveRun_header_exact chunks [] hdr body hdig (by rw [List.nil_append]; exact hlen)
      hjoin
  refine ⟨hmain, ?_⟩
  intro s hs
  unfold receiveStr
  rw [hmain, hs]
  show (match utf8Decode (utf8Encode s) with
    | some s0 => some (Except.ok s0)
    | none => some (Except.error ())) = some (Except.ok s)
  rw [utf8Decode_encode]

/-- Witness for C4 at the frame `2.\nhi` delivered one byte per read. -/
theorem c4_receive_reconstructs_witness :
    receiveBytes [[50], [46], [10], [104], [105]] = some (.ok [104, 105]) ∧
    receiveStr [[50], [46], [10], [104], [105]] = some (.ok ['h', 'i']) := by
  have h := c4_receive_reconstructs [[50], [46], [10], [104], [105]]
    [50, 46] [104, 105] (by decide) (by decide) (by decide)
  exact ⟨h.1, h.2 ['h', 'i'] (by decide)⟩

/-- C3 (amended): when the connection closes before a complete framed
message — the reads deliver only a proper prefix of the frame and then,
the connection being closed, return empty forever — `_receive` does not
fail with a transport error: an empty read leaves its accumulation state
unchanged, so the loop never returns at all (the run yields neither a
value nor a raised error for any number of further empty reads). -/
theorem c3_receive_never_returns (chunks : List Bytes)
    (hdr body rest : Bytes)
    (hdig : ∀ b ∈ hdr, dotOrDigit b)
    (hlen : pyIntBytes (hdr.filter (fun b => b ≠ 46)) = some body.length)
    (hjoin : chunks.flatten ++ rest = hdr ++ 10 :: body)
    (hrest : rest ≠ []) :
    (∀ s : RState, processBytes s [] = s) ∧
    ∀ k : Nat, receiveBytes (chunks ++ List.replicate k []) = none := by
  refine ⟨fun _ => rfl, fun k => ?_⟩
  unfold receiveBytes
  apply receiveRun_header_short (chunks ++ List.replicate k []) [] hdr body
    rest hdig (by rw [List.nil_append]; exact hlen) _ hrest
  rw [List.flatten_append, flatten_replicate_nil, List.append_nil]
  exact hjoin

/-- Witness for C3 (amended): frame `5.\nab...` truncated after two body
bytes, followed by two reads on the closed connection. -/
theorem c3_receive_never_returns_witness :
    receiveBytes [[53, 46, 10, 97, 98], [], []] = none := by
  have h := c3_receive_never_returns [[53, 46, 10, 97, 98]] [53, 46]
    [97, 98, 99, 100, 101] [99, 100, 101] (by decide) (by decide) (by decide)
    (by decide)
  exact h.2 2

/-- Counterexample for C3 as stated: the frame declares five body bytes,
two arrive, and the connection closes. The claim says `_receive` fails
with a transport error; in fact the run produces neither a value nor a
raised error (`none`) — the code would call `recv` on the closed
connection forever. -/
theorem c3_counterexample :
    receiveBytes [[53, 46, 10, 97, 98]] = none := rfl

/-- C6: an atom text is wrapped in single quotes by
`quote_prolog_identifier` if and only if it is empty (vacuous: on an atom
text the string is nonempty — the empty string raises instead, see C10),
does not start with a letter, or contains a character other than letters,
digits and underscore; otherwise the atom is returned unchanged, and a
non-atom (such as the variable `_`) is always returned unchanged. -/
theorem c6_quote_iff :
    (∀ (c : Char) (cs : PyStr), is_prolog_atom (.pstr (c :: cs)) = some true →
      ((quote_prolog_identifier (.pstr (c :: cs)) =
          some (.pstr (squoteC :: (c :: cs) ++ [squoteC]))) ↔
        (c :: cs = ([] : PyStr) ∨ pyIsAlpha c = false ∨
          ∃ x ∈ c :: cs, pyIsAlnumChar x = false ∧ x ≠ '_')) ∧
      ((quote_prolog_identifier (.pstr (c :: cs)) = some (.pstr (c :: cs))) ↔
        ¬ (c :: cs = ([] : PyStr) ∨ pyIsAlpha c = false ∨
          ∃ x ∈ c :: cs, pyIsAlnumChar x = false ∧ x ≠ '_'))) ∧
    (∀ j : PJson, is_prolog_atom j = some false →
      quote_prolog_identifier j = some j) := by
  constructor
  · intro c cs h
    have hq := quote_atom_chars c cs h
    obtain ⟨hup, hund⟩ := is_prolog_atom_head c cs h
    have halnum := pyIsAlnum_filter_underscore c cs hund
    have hnil : (c :: cs = ([] : PyStr)) = False := by simp
    rw [hnil]
    simp only [false_or]
    by_cases hcond :
        (!pyIsAlpha c || !pyIsAlnum ((c :: cs).filter (fun x => !(x = '_'))))
          = true
    · rw [hq, if_pos hcond]
      have hrhs : pyIsAlpha c = false ∨
          ∃ x ∈ c :: cs, pyIsAlnumChar x = false ∧ x ≠ '_' := by
        rcases Bool.or_eq_true _ _ |>.mp hcond with hl | hr
        · left; simpa using hl
        · right; exact halnum.mp hr
      constructor
      · constructor
        · intro _; exact hrhs
        · intro _; rfl
      · constructor
        · intro hcontra
          exact absurd (Option.some.injEq _ _ ▸ hcontra) (quoted_ne_plain _)
        · intro hcontra; exact absurd hrhs hcontra
    · rw [hq, if_neg hcond]
      have hrhs : ¬ (pyIsAlpha c = false ∨
          ∃ x ∈ c :: cs, pyIsAlnumChar x = false ∧ x ≠ '_') := by
        rw [Bool.or_eq_true, not_or] at hcond
        push_neg at hcond
        rintro (hl | hr)
        · exact hcond.1 (by simp [hl])
        · exact hcond.2 (halnum.mpr hr)
      constructor
      · constructor
        · intro hcontra
          have := Option.some.injEq _ _ ▸ hcontra
          exact absurd this.symm (quoted_ne_plain _)
        · intro hcontra; exact absurd hcontra hrhs
      · constructor
        · intro _; exact hrhs
        · intro _; rfl
  · intro j h
    unfold quote_prolog_identifier
    rw [h]

/-- Witness for C6: `b A` and `1b` are quoted, `b` and `_` are returned
unquoted and unchanged. -/
theorem c6_quote_iff_witness :
    quote_prolog_identifier (.pstr ['b', ' ', 'A']) =
      some (.pstr (squoteC :: ['b', ' ', 'A'] ++ [squoteC])) ∧
    quote_prolog_identifier (.pstr ['1', 'b']) =
      some (.pstr (squoteC :: ['1', 'b'] ++ [squoteC])) ∧
    quote_prolog_identifier (.pstr ['b']) = some (.pstr ['b']) ∧
    quote_prolog_identifier (.pstr ['_']) = some (.pstr ['_']) := by
  refine ⟨?_, ?_, ?_, ?_⟩
  · exact ((c6_quote_iff.1 'b' [' ', 'A'] (by decide)).1).mpr
      (Or.inr (Or.inr ⟨' ', by decide, by decide, by decide⟩))
  · exact ((c6_quote_iff.1 '1' ['b'] (by decide)).1).mpr
      (Or.inr (Or.inl (by decide)))
  · exact ((c6_quote_iff.1 'b' [] (by decide)).2).mpr (by decide)
  · exact c6_quote_iff.2 (.pstr ['_']) (by decide)

/-- C1: on well-formed decoded replies the classifier
`_return_prolog_response` returns exactly the defined value: a compound
named `false` yields Python `False` (whatever its arguments); a compound
named `true` wrapping a list of binding lists yields bare `True` exactly
when that list is `[[]]`, and otherwise one list entry per binding list —
`True` for an empty binding list, the variable-name-to-term dict for a
nonempty one (so a single-element result collapses to bare `True` only
with zero variables); and a well-formed `exception` reply either returns
the end marker `None` or raises a typed `PrologError` — never an untyped
fault and never a fall-through value. -/
theorem c1_classifier_welldefined :
    (∀ (flag : Bool) (args : List PJson),
      returnPrologResponse flag (compoundOf strFalseS args) =
        (flag, .ret (.pybool false))) ∧
    (∀ (flag : Bool) (bss : List (List (PyStr × PJson))),
      (∀ bs ∈ bss, (bs.map Prod.fst).Nodup) →
      (bss = [[]] →
        returnPrologResponse flag (trueReply bss) =
          (flag, .ret (.pybool true))) ∧
      (bss ≠ [[]] →
        returnPrologResponse flag (trueReply bss) =
          (flag, .ret (.pylist (bss.map expectedAnswer))))) ∧
    (∀ (flag : Bool) (t : PJson),
      returnPrologResponse flag (excReply t) = (flag, .ret .pynone) ∨
      ∃ (flag2 : Bool) (e : PrologErr),
        returnPrologResponse flag (excReply t) = (flag2, .raised e)) := by
  refine ⟨returnPrologResponse_false, ?_, ?_⟩
  · intro flag bss h
    constructor
    · rintro rfl
      rw [returnPrologResponse_true flag [[]] h]
      rfl
    · intro hne
      rw [returnPrologResponse_true flag bss h,
        collapseAnswerList_ne_singleton_empty bss hne]
  · intro flag t
    rw [returnPrologResponse_exc]
    repeat' split
    · left; rfl
    all_goals right; exact ⟨_, _, rfl⟩

/-- Witness for C1: one all-empty binding list collapses to bare `True`;
one bound variable plus one empty binding list give the dict and the
`True` marker, with no collapse. -/
theorem c1_classifier_welldefined_witness :
    returnPrologResponse false (trueReply [[]]) =
      (false, .ret (.pybool true)) ∧
    returnPrologResponse false (trueReply [[(['X'], PJson.pnum 1)], []]) =
      (false, .ret (.pylist [.pdict [(.kstr ['X'], .pnum 1)], .ptrue])) := by
  constructor
  · exact (c1_classifier_welldefined.2.1 false [[]] (by decide)).1 rfl
  · exact (c1_classifier_welldefined.2.1 false [[(['X'], PJson.pnum 1)], []]
      (by decide)).2 (by simp)

/-- Counterexample for C2 as stated: the claim says the classifier maps
the inner term's *name* to an outcome, but the code compares the inner
term itself against the literal strings. For the compound inner term
`connection_failed(a)` — whose name is `connection_failed` — the
classifier raises the generic `PrologError`, not
`PrologConnectionFailedError`, and leaves the flag unchanged. -/
theorem c2_counterexample :
    prolog_name (compoundOf strConnectionFailedS [.pstr ['a']]) =
      some (.pstr strConnectionFailedS) ∧
    returnPrologResponse false
        (excReply (compoundOf strConnectionFailedS [.pstr ['a']])) =
      (false,
       .raised ⟨.generic, compoundOf strConnectionFailedS [.pstr ['a']]⟩) :=
  ⟨rfl, rfl⟩

/-- C2 (amended): for a well-formed `exception(Inner)` reply the
classifier compares the inner term itself — not its name — against the
six literal atom strings, in order, mapping each to exactly one outcome
(`no_more_results` returns the end marker without raising;
`connection_failed` sets the flag and raises the connection error; the
other four raise their errors); any other inner term, including a
compound whose functor has one of these names, raises the generic
`PrologError`. Every raised error stores the inner term as its payload,
renders it as Prolog source text via `prolog()`, and answers
`is_prolog_exception` by comparing the inner term's name. -/
theorem c2_exception_classification :
    (∀ (flag : Bool) (t : PJson),
      returnPrologResponse flag (excReply t) =
        (if isStrV t strNoMoreResultsS then (flag, .ret .pynone)
         else if isStrV t strConnectionFailedS then
           (true, .raised ⟨.connectionFailed, t⟩)
         else if isStrV t strTimeLimitS then
           (flag, .raised ⟨.queryTimeout, t⟩)
         else if isStrV t strNoQueryS then (flag, .raised ⟨.noQuery, t⟩)
         else if isStrV t strCancelGoalS then
           (flag, .raised ⟨.queryCancelled, t⟩)
         else if isStrV t strResultNotAvailableS then
           (flag, .raised ⟨.resultNotAvailable, t⟩)
         else (flag, .raised ⟨.generic, t⟩))) ∧
    (∀ (k : PErrKind) (t : PJson),
      (PrologErr.mk k t).payload = t ∧
      (PrologErr.mk k t).prologText = json_to_prolog t ∧
      ∀ nm : PyStr, (PrologErr.mk k t).isPrologException nm =
        (prolog_name t).map (fun x => isStrV x nm)) := by
  refine ⟨returnPrologResponse_exc, ?_⟩
  intro k t
  refine ⟨rfl, rfl, fun nm => ?_⟩
  unfold PrologErr.isPrologException
  cases prolog_name t <;> rfl

/-- Counterexample for C7 as stated: a malformed frame (`abc` then
newline: the length header fails to parse) makes the query exchange
propagate the raw `ValueError` — not a `PrologConnectionFailedError` —
and the handle's `connection_failed` flag stays false. -/
theorem c7_counterexample :
    queryExchange loadsStub false (.recvReads [[97, 98, 99, 10]]) =
      (false, .valueError) := rfl

/-- C7 (amended): a transport-level error during a query-family call
propagates to the caller as the raw exception — `OSError` from the
socket send, `ValueError` from a malformed length header, the
`json.loads` error from an unparsable reply — and a read sequence that
never completes blocks forever; none of these set the handle's
`connection_failed` flag. The flag is changed only by
`_return_prolog_response` itself (and `halt_server`). -/
theorem c7_transport_errors_raw :
    ∀ (loads : PyStr → Option PJson) (flag : Bool) (chunks : List Bytes),
      queryExchange loads flag .sendFault = (flag, .osError) ∧
      (receiveStr chunks = none →
        queryExchange loads flag (.recvReads chunks) = (flag, .blocked)) ∧
      (∀ e : Unit, receiveStr chunks = some (.error e) →
        queryExchange loads flag (.recvReads chunks) = (flag, .valueError)) ∧
      (∀ msg : PyStr, receiveStr chunks = some (.ok msg) → loads msg = none →
        queryExchange loads flag (.recvReads chunks) = (flag, .jsonError)) := by
  intro loads flag chunks
  refine ⟨rfl, ?_, ?_, ?_⟩
  · intro h
    simp only [queryExchange]
    rw [h]
  · intro e h
    simp only [queryExchange]
    rw [h]
  · intro msg h hl
    simp only [queryExchange]
    rw [h]
    show (match loads msg with
      | none => (flag, QOutcome.jsonError)
      | some j =>
        match returnPrologResponse flag j with
        | (flag2, ROutcome.ret v) => (flag2, QOutcome.ret v)
        | (flag2, ROutcome.raised e) => (flag2, QOutcome.raised e)
        | (flag2, ROutcome.pyFault) => (flag2, QOutcome.pyFault)) =
      (flag, QOutcome.jsonError)
    rw [hl]

/-- Witness for C7 (amended) on concrete wires: a send fault, a
truncated read sequence, a malformed header, and an unparsable
message. -/
theorem c7_transport_errors_raw_witness :
    queryExchange loadsStub true .sendFault = (true, .osError) ∧
    queryExchange loadsStub false (.recvReads [[53, 46, 10, 97]]) =
      (false, .blocked) ∧
    queryExchange loadsStub false (.recvReads [[10]]) = (false, .valueError) ∧
    queryExchange loadsStub false (.recvReads [[50, 46, 10, 104, 105]]) =
      (false, .jsonError) := by
  refine ⟨?_, ?_, ?_, ?_⟩
  · exact (c7_transport_errors_raw loadsStub true []).1
  · exact (c7_transport_errors_raw loadsStub false [[53, 46, 10, 97]]).2.1 rfl
  · exact (c7_transport_errors_raw loadsStub false [[10]]).2.2.1 () rfl
  · exact (c7_transport_errors_raw loadsStub false
      [[50, 46, 10, 104, 105]]).2.2.2 ['h', 'i'] rfl rfl

/-- C8: the handle's `connection_failed` flag starts false, no operation
of `PrologServer` or `PrologThread` ever resets it from true to false,
classifying a `connection_failed` reply sets it (before the raise), and
a `halt_server` whose reply classifies without raising sets it after the
acknowledgement. -/
theorem c8_flag_write_once :
    initConnectionFailed = false ∧
    (∀ op : HandleOp, flagAfter true op = true) ∧
    (∀ flag : Bool,
      (returnPrologResponse flag (excReply (.pstr strConnectionFailedS))).1 =
        true) ∧
    (∀ (flag flag2 : Bool) (j : PJson) (v : PyVal),
      returnPrologResponse flag j = (flag2, .ret v) →
      (haltServer flag (.reply j)).1 = true) := by
  refine ⟨rfl, flagAfter_mono, ?_, ?_⟩
  · intro flag
    rw [returnPrologResponse_exc]
    rw [if_neg (by decide), if_pos (by decide)]
  · intro flag flag2 j v h
    simp only [haltServer]
    rw [h]

/-- Witness for C8: a `halt_server` acknowledged by a `false` reply sets
the flag. -/
theorem c8_flag_write_once_witness :
    (haltServer false (.reply (compoundOf strFalseS []))).1 = true :=
  c8_flag_write_once.2.2.2 false false (compoundOf strFalseS [])
    (.pybool false) (returnPrologResponse_false false [])

/-- Counterexample for C9 as stated: the claim says `PrologThread.stop`
closes the transport socket in all cases. When the close-handshake reply
is `exception(connection_failed)`, `_return_prolog_response` raises a
`PrologError` subclass — which the `except OSError` clause does not catch
— so `stop` propagates it before `self._socket.close()` runs and the
socket stays open. -/
theorem c9_counterexample :
    (threadStop ⟨false, true⟩
        (.reply (excReply (.pstr strConnectionFailedS)))).1.socketOpen =
      true := rfl

/-- C9 (amended): `PrologThread.stop` attempts the close handshake
exactly when the socket is open and the flag is unset; it closes the
socket whenever it returns normally (transport `OSError`s are swallowed),
but a handshake reply that classifies to a raised error propagates and
leaves the socket open; a stop on an already-closed socket is a no-op
(idempotence). `PrologServer.stop` with a launched process kills it
whenever `kill` is requested or the flag is set, and otherwise performs
the graceful `halt_server` exchange. -/
theorem c9_stop_paths :
    (∀ (st : ThreadState) (w : StopWire),
      (threadStop st w).2.2 = (st.socketOpen && !st.flag)) ∧
    (∀ (st : ThreadState) (w : StopWire),
      (threadStop st w).2.1 = .ok → (threadStop st w).1.socketOpen = false) ∧
    (∀ (f : Bool) (w : StopWire),
      threadStop ⟨f, false⟩ w = (⟨f, false⟩, .ok, false)) ∧
    (∀ (flag kill : Bool) (w : StopWire),
      serverStop flag true kill w =
        (if kill || flag then (flag, some .killed)
         else ((haltServer flag w).1, some .halted))) := by
  refine ⟨?_, ?_, ?_, ?_⟩
  · rintro ⟨f, so⟩ w
    cases so with
    | false => cases f <;> rfl
    | true =>
      cases f with
      | true => rfl
      | false =>
        cases w with
        | osFault => rfl
        | reply j =>
          cases hr : returnPrologResponse false j with
          | mk f2 r => cases r <;> simp [threadStop, hr]
  · rintro ⟨f, so⟩ w h
    cases so with
    | false => exact (congrArg ThreadState.socketOpen (rfl : (threadStop ⟨f, false⟩ w).1 = ⟨f, false⟩))
    | true =>
      cases f with
      | true => rfl
      | false =>
        cases w with
        | osFault => rfl
        | reply j =>
          cases hr : returnPrologResponse false j with
          | mk f2 r =>
            cases r with
            | ret v => simp [threadStop, hr]
            | raised e =>
              rw [show (threadStop ⟨false, true⟩ (.reply j)).2.1 =
                StopOutcome.raised e by simp [threadStop, hr]] at h
              exact absurd h (by simp)
            | pyFault =>
              rw [show (threadStop ⟨false, true⟩ (.reply j)).2.1 =
                StopOutcome.pyFault by simp [threadStop, hr]] at h
              exact absurd h (by simp)
  · intro f w; cases f <;> rfl
  · intro flag kill w
    cases kill with
    | true => cases flag <;> rfl
    | false =>
      cases flag with
      | true => rfl
      | false =>
        cases hh : haltServer false w with
        | mk f2 r => simp [serverStop, hh]

/-- Witness for C9 (amended): a normally acknowledged close handshake
ends with the socket closed. -/
theorem c9_stop_paths_witness :
    (threadStop ⟨false, true⟩
        (.reply (compoundOf strFalseS []))).1.socketOpen = false :=
  c9_stop_paths.2.1 ⟨false, true⟩ (.reply (compoundOf strFalseS [])) rfl
